import Mathlib

/-!
Verification of the creepypastaAI media assembly pipeline.

This file gives a shallow embedding, in Lean 4, of the parts of the
repository that the specification's claims are about:

* `src/src/video/ffmpeg_video_processor.py` — the render strategy chain
  (`create_video_from_images`), the OpenCV frame compositor
  (`_create_video_with_opencv`) and the audio mux (`_add_audio_with_ffmpeg`);
* `src/src/video/video_generator.py` — `create_video`, in particular the
  keyword-argument call into `create_video_from_images`;
* `src/src/video/subtitle_generator.py` — text cleaning, segment splitting
  and the proportional timing allocation (`_calculate_timing`);
* `src/src/image/openai_image_generator.py` — `ensure_sufficient_images`
  and the content-addressed image cache used by `generate_images`.

Python floats are modelled as rationals (`ℚ`), Python `int()` truncation as
`pyInt`, Python strings as `List Char`, and the effects at the boundary
(filesystem, subprocesses, randomness, the OpenAI client) as explicit
parameters recording the outcome of each boundary call.
-/

/-- Python `int()` applied to a float/rational: truncation toward zero. -/
def pyInt (q : ℚ) : ℤ := if 0 ≤ q then ⌊q⌋ else -⌊-q⌋

/-! ## Render strategy chain: `FFmpegVideoProcessor.create_video_from_images`

`create_video_from_images` (ffmpeg_video_processor.py, lines 76–147) builds
the fixed list `methods = [_method_opencv_sequence, _method_ffmpeg_concat,
_method_simple_slideshow, _method_basic_conversion]` and runs

    for i, method in enumerate(methods):
        try:
            success = method(...)
            if success and Path(output_path).exists():
                return True
        except Exception as e:
            continue
    return False

after rejecting an empty `image_paths` list and a length mismatch between
`image_paths` and `durations`.  We model the outcome of one strategy
attempt (a boundary interaction: subprocess calls, file writes) as an
`AttemptResult`, and the chain as a fold over the list of outcomes. -/

/-- The four rendering strategies, in the order of the `methods` list of
`create_video_from_images` (ffmpeg_video_processor.py, lines 116–121). -/
inductive RenderMethod
  | method_opencv_sequence
  | method_ffmpeg_concat
  | method_simple_slideshow
  | method_basic_conversion
deriving DecidableEq, Repr

/-- The `methods` list of `create_video_from_images`: strategy 0 is the
OpenCV compositor, 1 the FFmpeg concat manifest, 2 the reduced slideshow,
3 the single-frame conversion. -/
def methodOrder : List RenderMethod :=
  [RenderMethod.method_opencv_sequence, RenderMethod.method_ffmpeg_concat,
   RenderMethod.method_simple_slideshow, RenderMethod.method_basic_conversion]

/-- Outcome of attempting one rendering strategy (a boundary interaction).
`raised` records whether the method raised an exception, `success` its
boolean return value when it did not raise, `outputExists` whether
`Path(output_path).exists()` holds after the attempt, and `outputSize` the
size in bytes of the output file after the attempt (0 when absent). -/
structure AttemptResult where
  raised : Bool
  success : Bool
  outputExists : Bool
  outputSize : ℕ
deriving DecidableEq, Repr

/-- The acceptance test of the chain loop: the method returned truthy and
did not raise, and `Path(output_path).exists()` holds
(ffmpeg_video_processor.py, line 138).  Note that `outputSize` is not
consulted. -/
def attemptAccepted (a : AttemptResult) : Bool :=
  !a.raised && a.success && a.outputExists

/-- The strategy loop of `create_video_from_images`, instrumented with the
trace of methods that were invoked: returns the list of attempted methods
(in invocation order) and the boolean result of the chain. -/
def runMethodsTrace : List (RenderMethod × AttemptResult) → List RenderMethod × Bool
  | [] => ([], false)
  | (m, a) :: rest =>
      if attemptAccepted a then ([m], true)
      else
        let r := runMethodsTrace rest
        (m :: r.1, r.2)

/-- The boolean result of the strategy loop (the value
`create_video_from_images` returns once it reaches the loop). -/
def runMethods (attempts : List (RenderMethod × AttemptResult)) : Bool :=
  (runMethodsTrace attempts).2

/-- `create_video_from_images` (ffmpeg_video_processor.py, lines 76–147):
guards on empty `image_paths` and on a length mismatch with `durations`,
then runs the four strategies in `methodOrder` against the recorded
per-strategy outcomes `a0 a1 a2 a3`. -/
def create_video_from_images (imagePaths : List α) (durations : List ℚ)
    (a0 a1 a2 a3 : AttemptResult) : Bool :=
  if imagePaths.isEmpty then false
  else if imagePaths.length ≠ durations.length then false
  else runMethods (methodOrder.zip [a0, a1, a2, a3])

/-! ## The call site in `VideoGenerator.create_video`

`create_video` (video_generator.py, lines 301–472) wraps its whole body in
`try: ... except Exception: return None`.  After validating that the audio
file exists and that `ensure_sufficient_images` returned a non-empty list,
it calls (lines 441–452)

    processor.create_video_from_images(image_paths=..., durations=...,
        audio_path=..., output_path=..., background_music_path=...,
        music_volume=..., crossfade_duration=..., resolution=..., fps=24,
        subtitle_path=subtitle_path)

We model Python keyword binding: a call with keyword arguments binds iff
every passed keyword names a declared parameter (the callee declares no
`**kwargs`); otherwise the call raises `TypeError`. -/

/-- Keyword names involved in the call from `create_video` into
`create_video_from_images`. -/
inductive KwName
  | image_paths
  | durations
  | audio_path
  | output_path
  | background_music_path
  | music_volume
  | crossfade_duration
  | resolution
  | fps
  | subtitle_path
deriving DecidableEq, Repr

/-- The declared parameters of
`FFmpegVideoProcessor.create_video_from_images`
(ffmpeg_video_processor.py, lines 76–87); there is no `**kwargs`. -/
def create_video_from_images_params : List KwName :=
  [KwName.image_paths, KwName.durations, KwName.audio_path, KwName.output_path,
   KwName.background_music_path, KwName.music_volume, KwName.crossfade_duration,
   KwName.resolution, KwName.fps]

/-- The keyword arguments passed at the call site in
`VideoGenerator.create_video` (video_generator.py, lines 441–452). -/
def create_video_call_kwargs : List KwName :=
  [KwName.image_paths, KwName.durations, KwName.audio_path, KwName.output_path,
   KwName.background_music_path, KwName.music_volume, KwName.crossfade_duration,
   KwName.resolution, KwName.fps, KwName.subtitle_path]

/-- Python keyword binding for a callee without `**kwargs`: the call binds
iff every passed keyword is a declared parameter; otherwise `TypeError`. -/
def kwargsBindOk (declared passed : List KwName) : Bool :=
  passed.all (fun k => declared.contains k)

/-- `VideoGenerator.create_video` (video_generator.py, lines 301–472),
restricted to its control-flow skeleton: `audioExists` is the
`audio_path.exists()` check (line 323), `imagePaths` the list returned by
`ensure_sufficient_images` (line 362, guarded at line 366), and
`processorResult` the value `create_video_from_images` would return if the
call bound.  If the call site's keywords do not bind, the `TypeError`
propagates to the enclosing handler (line 470) and `None` is returned. -/
def create_video (audioExists : Bool) (imagePaths : List α)
    (outputPath : β) (processorResult : Bool) : Option β :=
  if !audioExists then none
  else if imagePaths.isEmpty then none
  else if kwargsBindOk create_video_from_images_params create_video_call_kwargs then
    (if processorResult then some outputPath else none)
  else none

/-! ## Frame compositor: `_create_video_with_opencv`

`_create_video_with_opencv` (ffmpeg_video_processor.py, lines 365–435)
writes, per slot `i` with duration `d`:

    image = cv2.imread(image_path)
    if image is None: continue            # unreadable: no frames at all
    total_frames = int(duration * fps)
    if i > 0 and crossfade_frames > 0:
        prev_image = cv2.imread(image_paths[i-1])
        if prev_image is not None:
            for frame in range(crossfade_frames): ...write blended...
            total_frames -= crossfade_frames
    for _ in range(max(1, total_frames)): ...write image...

where `crossfade_frames = int(crossfade_duration * fps)`.  We model the
number of frames written for one slot; readability of the current and
previous image files is a boundary fact passed in as booleans. -/

/-- `crossfade_frames` (ffmpeg_video_processor.py, line 401). -/
def crossfadeFrames (crossfadeDuration : ℚ) (fps : ℕ) : ℤ :=
  pyInt (crossfadeDuration * fps)

/-- Number of frames `_create_video_with_opencv` writes for slot `i` of
duration `duration`: zero when the slot's image is unreadable; otherwise
the crossfade frames (when `i > 0`, `crossfade_frames > 0` and the
previous image is readable) followed by `max 1` of the remaining
steady-state budget. -/
def slotFramesWritten (i : ℕ) (duration crossfadeDuration : ℚ) (fps : ℕ)
    (currReadable prevReadable : Bool) : ℤ :=
  if !currReadable then 0
  else
    let cf := crossfadeFrames crossfadeDuration fps
    let total := pyInt (duration * fps)
    if 0 < i ∧ 0 < cf ∧ prevReadable then cf + max 1 (total - cf)
    else max 1 total

/-! ## Audio mux: `_add_audio_with_ffmpeg`

`_add_audio_with_ffmpeg` (ffmpeg_video_processor.py, lines 437–514) builds
one FFmpeg invocation.  When both narration and background music are
present (lines 461–476) it applies exactly

    music_adjusted = ffmpeg.filter(music_stream, 'volume', music_volume)
    mixed_audio = ffmpeg.filter([audio_stream, music_adjusted], 'amix', inputs=2)

and outputs with `vcodec='copy'`, `acodec='aac'`, `shortest=None`.  We
embed the audio filter graph the function constructs as a list of filter
operations, in application order. -/

/-- FFmpeg audio filter operations relevant to the mux step. -/
inductive AudioFilterOp
  | volume (level : ℚ)
  | amix (inputs : ℕ)
  | aloop
  | atrim (length : ℚ)
  | afadeIn (duration : ℚ)
  | afadeOut (duration : ℚ)
deriving DecidableEq, Repr

/-- The audio filter chain `_add_audio_with_ffmpeg` constructs, by its four
branches: both narration and music (volume on music, then 2-input amix),
narration only (no filter), music only (volume), neither (the function
returns `False` without running FFmpeg, modelled as `none`). -/
def add_audio_with_ffmpeg_filters (audioPath musicPath : Option α)
    (musicVolume : ℚ) : Option (List AudioFilterOp) :=
  match audioPath, musicPath with
  | some _, some _ => some [AudioFilterOp.volume musicVolume, AudioFilterOp.amix 2]
  | some _, none => some []
  | none, some _ => some [AudioFilterOp.volume musicVolume]
  | none, none => none

/-- A filter operation that loops a stream. -/
def AudioFilterOp.isLoop : AudioFilterOp → Bool
  | AudioFilterOp.aloop => true
  | _ => false

/-- A filter operation that trims a stream to a length. -/
def AudioFilterOp.isTrim : AudioFilterOp → Bool
  | AudioFilterOp.atrim _ => true
  | _ => false

/-- A filter operation that fades a stream in or out. -/
def AudioFilterOp.isFade : AudioFilterOp → Bool
  | AudioFilterOp.afadeIn _ => true
  | AudioFilterOp.afadeOut _ => true
  | _ => false

/-! ## Image availability guarantor: `ensure_sufficient_images`

`OpenAIImageGenerator.ensure_sufficient_images` (openai_image_generator.py,
lines 322–370):

    existing_images = self.get_existing_images()
    if len(existing_images) >= required_count:
        selected_images = random.sample(existing_images, required_count)
        random.shuffle(selected_images)
        return selected_images
    if not self.openai_client:
        if existing_images: return existing_images
        return []
    new_images = self.generate_images(..., images_needed)
    all_images = existing_images + new_images
    random.shuffle(all_images)
    return all_images[:required_count] if len(all_images) >= required_count else all_images

Randomness and the filesystem/network are boundary effects: we pass the
directory scan result `existingImages`, the outcome `sample` of
`random.sample`, the outcome `shuffle` of `random.shuffle` (a permutation
of its input), and the outcome `generated` of `generate_images` in as
parameters. -/

/-- `ensure_sufficient_images`, with boundary effects as parameters:
`sample xs n` is the result of `random.sample(xs, n)`, `shuffle xs` the
result of shuffling `xs` in place, `clientAvailable` whether
`self.openai_client` is set, and `generated n` what `generate_images`
returns when asked for `n` images. -/
def ensure_sufficient_images (sample : List α → ℕ → List α)
    (shuffle : List α → List α) (generated : ℕ → List α)
    (existingImages : List α) (clientAvailable : Bool)
    (requiredCount : ℕ) : List α :=
  if requiredCount ≤ existingImages.length then
    shuffle (sample existingImages requiredCount)
  else if !clientAvailable then
    if !existingImages.isEmpty then existingImages else []
  else
    let allImages := shuffle (existingImages ++ generated (requiredCount - existingImages.length))
    if requiredCount ≤ allImages.length then allImages.take requiredCount else allImages

/-! ## Content-addressed image cache: `generate_images`

In `OpenAIImageGenerator.generate_images` (openai_image_generator.py,
lines 239–252), for each prompt:

    prompt_hash = hashlib.md5(prompt.encode()).hexdigest()
    cache_key = f"..." # prompt_hash + "_" + self.image_size + "_" + self.image_quality
    if self.cache_enabled and cache_key in self.cache_data["generated_images"]:
        cached_path = self.cache_data["generated_images"][cache_key]["file_path"]
        if Path(cached_path).exists():
            generated_images.append(cached_path)
            continue
    ...generation call; on verified success and cache_enabled,
       self.cache_data["generated_images"][cache_key] = {...}...

The cache lives in a Python dict keyed by `cache_key`; we model it as an
association list with unique keys, dict assignment as `updateCache`, and
`hashlib.md5(...).hexdigest()` as an abstract function parameter (it is a
pure function of the prompt string). -/

/-- One entry of `cache_data["generated_images"]`. -/
structure CacheEntry where
  file_path : String
  prompt : String
  story_title : String
deriving DecidableEq, Repr

/-- The `cache_key` computed in `generate_images` (line 244–245):
the md5 hex digest of the prompt, then the output size, then the quality
tier, joined by underscores.  `md5hex` abstracts `hashlib.md5(
prompt.encode()).hexdigest()`, a pure function of the prompt. -/
def cacheKey (md5hex : String → String) (prompt size quality : String) : String :=
  md5hex prompt ++ "_" ++ size ++ "_" ++ quality

/-- Dict lookup `cache_data["generated_images"].get(cache_key)`. -/
def lookupCache (cache : List (String × CacheEntry)) (k : String) : Option CacheEntry :=
  (cache.find? (fun kv => kv.1 = k)).map (fun kv => kv.2)

/-- Dict assignment `cache_data["generated_images"][cache_key] = entry`:
replaces the binding when the key is present, appends otherwise. -/
def updateCache (cache : List (String × CacheEntry)) (k : String)
    (e : CacheEntry) : List (String × CacheEntry) :=
  if (cache.find? (fun kv => kv.1 = k)).isSome then
    cache.map (fun kv => if kv.1 = k then (k, e) else kv)
  else cache ++ [(k, e)]

/-- Result of processing one prompt in the `generate_images` loop. -/
structure PromptStepResult where
  generationCalled : Bool
  resultPath : Option String
  newCache : List (String × CacheEntry)
deriving DecidableEq, Repr

/-- The per-prompt loop body of `generate_images` (lines 239–302):
cache consultation, then — on a miss or a stale entry — the generation
call.  `fileExists` is the `Path(...).exists()` boundary check, and
`genOutcome` the outcome of the DALL-E generation / download / size-check
branch: `some (path, entry)` when a verified image was saved, `none` when
any step of that branch failed (the failure is logged and skipped). -/
def generateImagesStep (cacheEnabled : Bool) (fileExists : String → Bool)
    (genOutcome : Option (String × CacheEntry))
    (cache : List (String × CacheEntry)) (k : String) : PromptStepResult :=
  match (if cacheEnabled then lookupCache cache k else none) with
  | some entry =>
      if fileExists entry.file_path then
        { generationCalled := false, resultPath := some entry.file_path, newCache := cache }
      else
        match genOutcome with
        | some pe =>
            { generationCalled := true, resultPath := some pe.1,
              newCache := if cacheEnabled then updateCache cache k pe.2 else cache }
        | none => { generationCalled := true, resultPath := none, newCache := cache }
  | none =>
      match genOutcome with
      | some pe =>
          { generationCalled := true, resultPath := some pe.1,
            newCache := if cacheEnabled then updateCache cache k pe.2 else cache }
      | none => { generationCalled := true, resultPath := none, newCache := cache }

/-! ## Subtitle generator: text cleaning and segmentation

`SubtitleGenerator` (subtitle_generator.py) works on Python strings; we
model them as `List Char` so that `len` is list length.  The whitespace
class below is the ASCII part of Python's `str.split()` / `str.strip()` /
regex `\s` whitespace. -/

/-- Python whitespace (ASCII): space, tab, newline, carriage return,
vertical tab, form feed. -/
def isPySpace (c : Char) : Bool :=
  c = ' ' || c = '\t' || c = '\n' || c = '\r' || c = '\x0b' || c = '\x0c'

/-- Python `str.strip()`: drop leading and trailing whitespace. -/
def pyStrip (s : List Char) : List Char :=
  ((s.dropWhile isPySpace).reverse.dropWhile isPySpace).reverse

/-- Worker for `pyFields`: accumulates the current field (reversed). -/
def pyFieldsGo : List Char → List Char → List (List Char)
  | [], acc => if acc.isEmpty then [] else [acc.reverse]
  | c :: rest, acc =>
      if isPySpace c then
        if acc.isEmpty then pyFieldsGo rest []
        else acc.reverse :: pyFieldsGo rest []
      else pyFieldsGo rest (c :: acc)

/-- Python `str.split()` with no argument: whitespace-separated fields,
empty fields dropped. -/
def pyFields (s : List Char) : List (List Char) :=
  pyFieldsGo s []

/-- Python `' '.join(words)`. -/
def joinWords (ws : List (List Char)) : List Char :=
  (ws.intersperse [' ']).flatten

/-- Python `'\n'.join(lines)`. -/
def joinLines (ws : List (List Char)) : List Char :=
  (ws.intersperse ['\n']).flatten

/-- Worker for `collapseWs`; the flag records whether the previous input
character was whitespace (so the current run is already collapsed). -/
def collapseWsGo : Bool → List Char → List Char
  | _, [] => []
  | prevSpace, c :: rest =>
      if isPySpace c then
        if prevSpace then collapseWsGo true rest
        else ' ' :: collapseWsGo true rest
      else c :: collapseWsGo false rest

/-- The substitution `re.sub` of the whitespace pattern by a single space
(subtitle_generator.py, lines 103 and 115): every maximal whitespace run
becomes one space. -/
def collapseWs (s : List Char) : List Char :=
  collapseWsGo false s

/-- The bold-marker substitution of subtitle_generator.py line 106: a
match is a double star, a nonempty run of non-star characters, then a
double star; it is replaced by the run and scanning resumes after the
match.  When the double star at a position opens no match, one character
is emitted and scanning resumes at the next position. -/
def subBold : List Char → List Char
  | [] => []
  | '*' :: '*' :: rest =>
      if (rest.takeWhile (fun x => x != '*')).isEmpty then '*' :: subBold ('*' :: rest)
      else
        match h : rest.dropWhile (fun x => x != '*') with
        | '*' :: '*' :: tail => rest.takeWhile (fun x => x != '*') ++ subBold tail
        | _ => '*' :: subBold ('*' :: rest)
  | c :: rest => c :: subBold rest
termination_by l => l.length
decreasing_by
  all_goals simp only [List.length_cons]
  all_goals try omega
  have h1 := (List.dropWhile_sublist (l := rest) (fun x => x != '*')).length_le
  rw [h] at h1
  simp only [List.length_cons] at h1
  omega

/-- The single-delimiter substitutions of subtitle_generator.py lines 107
(italic, star) and 108 (underscore): a match is the delimiter, a nonempty
run of non-delimiter characters, then the delimiter, replaced by the
run. -/
def subSingleDelim (d : Char) : List Char → List Char
  | [] => []
  | c :: rest =>
      if c = d then
        if (rest.takeWhile (fun x => x != d)).isEmpty then c :: subSingleDelim d rest
        else
          match h : rest.dropWhile (fun x => x != d) with
          | a :: tail =>
              if a = d then rest.takeWhile (fun x => x != d) ++ subSingleDelim d tail
              else c :: subSingleDelim d rest
          | [] => c :: subSingleDelim d rest
      else c :: subSingleDelim d rest
termination_by l => l.length
decreasing_by
  all_goals simp only [List.length_cons]
  all_goals try omega
  have h1 := (List.dropWhile_sublist (l := rest) (fun x => x != d)).length_le
  rw [h] at h1
  simp only [List.length_cons] at h1
  omega

/-- The bracketed-span and parenthesised-span removals of
subtitle_generator.py lines 111 and 112: from an opening delimiter, the
lazy wildcard runs to the first closing delimiter with no intervening
newline (the regex dot does not match a newline); the whole span is
removed.  Without such a closing delimiter the opener is kept and
scanning advances one character. -/
def removeDelimSpans (op cl : Char) : List Char → List Char
  | [] => []
  | c :: rest =>
      if c = op then
        match h : rest.dropWhile (fun x => x != cl && x != '\n') with
        | a :: tail =>
            if a = cl then removeDelimSpans op cl tail
            else c :: removeDelimSpans op cl rest
        | [] => c :: removeDelimSpans op cl rest
      else c :: removeDelimSpans op cl rest
termination_by l => l.length
decreasing_by
  all_goals simp only [List.length_cons]
  all_goals try omega
  have h1 := (List.dropWhile_sublist (l := rest) (fun x => x != cl && x != '\n')).length_le
  rw [h] at h1
  simp only [List.length_cons] at h1
  omega

/-- `SubtitleGenerator._clean_text` (subtitle_generator.py, lines 92–117):
collapse whitespace, strip bold / italic / underscore markers, remove
bracketed and parenthesised spans, collapse whitespace again and strip. -/
def clean_text (text : List Char) : List Char :=
  pyStrip (collapseWs (removeDelimSpans '(' ')' (removeDelimSpans '[' ']'
    (subSingleDelim '_' (subSingleDelim '*' (subBold (collapseWs text)))))))

/-- Sentence-boundary characters of the split pattern in
`_split_text_into_segments` (subtitle_generator.py, line 130). -/
def isSentenceEnd (c : Char) : Bool :=
  c = '.' || c = '!' || c = '?'

mutual
/-- Worker for the sentence split `re.split` on runs of `.`, `!`, `?`
(subtitle_generator.py, line 130): accumulates the current field
(reversed) and emits it at each separator run. -/
def splitSentencesGo : List Char → List Char → List (List Char)
  | [], acc => [acc.reverse]
  | c :: rest, acc =>
      if isSentenceEnd c then acc.reverse :: splitSentencesSkip rest
      else splitSentencesGo rest (c :: acc)
termination_by l _ => l.length

/-- Worker skipping the remainder of a separator run; a run at the end of
the input still yields a trailing empty field, as `re.split` does. -/
def splitSentencesSkip : List Char → List (List Char)
  | [] => [[]]
  | c :: rest =>
      if isSentenceEnd c then splitSentencesSkip rest
      else splitSentencesGo rest [c]
termination_by l => l.length
end

/-- The sentence split of `_split_text_into_segments`: `re.split` on runs
of sentence-end characters. -/
def splitSentences (text : List Char) : List (List Char) :=
  splitSentencesGo text []

/-- The word grouping of `_split_text_into_segments` (line 142): the
slices `words[i:i+n]` for `i = 0, n, 2n, ...`; `n ≥ 1` (Python's `range`
raises for a zero step, and the configured value is the word count per
subtitle, 8 by default). -/
def chunkWords (n : ℕ) : List α → List (List α)
  | [] => []
  | x :: xs => (x :: xs.take (n - 1)) :: chunkWords n (xs.drop (n - 1))
termination_by l => l.length
decreasing_by
  simp only [List.length_cons, List.length_drop]
  omega

/-- Worker for `_break_into_lines` (subtitle_generator.py, lines 155–186),
carrying `lines`, `current_length` and `current_line` exactly as the
source does; note that when a single word exceeds the limit while
`current_line` is empty, the word is appended as its own line and
`current_length` is left unchanged. -/
def breakIntoLinesGo (maxChars : ℕ) :
    List (List Char) → List (List Char) → ℕ → List (List Char) → List (List Char)
  | [], lines, _, currentLine =>
      if currentLine.isEmpty then lines else lines ++ [joinWords currentLine]
  | w :: ws, lines, currentLength, currentLine =>
      if currentLength + w.length + 1 ≤ maxChars then
        breakIntoLinesGo maxChars ws lines (currentLength + w.length + 1) (currentLine ++ [w])
      else if !currentLine.isEmpty then
        breakIntoLinesGo maxChars ws (lines ++ [joinWords currentLine]) w.length [w]
      else
        breakIntoLinesGo maxChars ws (lines ++ [w]) currentLength currentLine

/-- `SubtitleGenerator._break_into_lines`. -/
def break_into_lines (maxChars : ℕ) (text : List Char) : List (List Char) :=
  breakIntoLinesGo maxChars (pyFields text) [] 0 []

/-- The per-sentence part of the loop body of `_split_text_into_segments`
(lines 133–151): strip the sentence, skip it when empty, split it into
words, group the words `wps` at a time, join each group with spaces and
wrap it onto multiple lines when longer than `maxChars`. -/
def segmentsOfSentence (wps maxChars : ℕ) (sentence : List Char) : List (List Char) :=
  if (pyStrip sentence).isEmpty then []
  else
    (chunkWords wps (pyFields (pyStrip sentence))).map (fun chunk =>
      if maxChars < (joinWords chunk).length then
        joinLines (break_into_lines maxChars (joinWords chunk))
      else joinWords chunk)

/-- `SubtitleGenerator._split_text_into_segments` (lines 119–153),
including the final filter keeping only segments with non-whitespace
content. -/
def split_text_into_segments (wps maxChars : ℕ) (text : List Char) : List (List Char) :=
  (((splitSentences text).map (segmentsOfSentence wps maxChars)).flatten).filter
    (fun seg => !(pyStrip seg).isEmpty)

/-! ## Subtitle timing: `_calculate_timing`

`_calculate_timing` (subtitle_generator.py, lines 188–230):

    if not segments: return []
    total_chars = sum(len(seg) for seg in segments)
    timed_segments = []; current_time = 0.0
    for segment in segments:
        char_ratio = len(segment) / total_chars if total_chars > 0 else 1.0 / len(segments)
        segment_duration = total_duration * char_ratio
        segment_duration = max(1.0, segment_duration)
        start_time = current_time
        end_time = min(current_time + segment_duration, total_duration)
        timed_segments.append((start_time, end_time, segment))
        current_time = end_time
        if current_time >= total_duration: break
    return timed_segments
-/

/-- `total_chars = sum(len(seg) for seg in segments)` (line 207). -/
def totalCharsOf (segments : List (List Char)) : ℕ :=
  segments.foldl (fun acc s => acc + s.length) 0

/-- One timed caption segment: a `(start_time, end_time, text)` triple. -/
structure TimedSegment where
  startTime : ℚ
  endTime : ℚ
  text : List Char
deriving DecidableEq, Repr

/-- The duration of a timed segment. -/
def TimedSegment.duration (t : TimedSegment) : ℚ :=
  t.endTime - t.startTime

/-- The `char_ratio` of one segment (line 214): proportional to character
count, with the degenerate fallback `1.0 / len(segments)` when the total
character count is zero. -/
def segRatio (totalChars n : ℕ) (seg : List Char) : ℚ :=
  if 0 < totalChars then (seg.length : ℚ) / totalChars else 1 / n

/-- The timing loop of `_calculate_timing`, over the remaining segments
and the running `current_time`. -/
def calcTimingGo (totalChars n : ℕ) (D : ℚ) : List (List Char) → ℚ → List TimedSegment
  | [], _ => []
  | seg :: rest, current =>
      { startTime := current,
        endTime := min (current + max 1 (D * segRatio totalChars n seg)) D,
        text := seg } ::
        (if D ≤ min (current + max 1 (D * segRatio totalChars n seg)) D then []
         else calcTimingGo totalChars n D rest
           (min (current + max 1 (D * segRatio totalChars n seg)) D))

/-- `SubtitleGenerator._calculate_timing`. -/
def calculate_timing (segments : List (List Char)) (D : ℚ) : List TimedSegment :=
  if segments.isEmpty then []
  else calcTimingGo (totalCharsOf segments) segments.length D segments 0

/-- The Subtitle Timer pipeline as driven by `generate_subtitle_file`
(subtitle_generator.py, lines 59–71): clean the text, split it into
segments, and allocate timing over the audio duration. -/
def subtitleTimer (wps maxChars : ℕ) (text : List Char) (D : ℚ) : List TimedSegment :=
  calculate_timing (split_text_into_segments wps maxChars (clean_text text)) D

/-! ## Theorems

Shared lemmas about the timing loop, then one theorem per claim of the
specification (with witnesses and counterexamples where applicable). -/

/-- The timing loop yields an entry for every nonempty input. -/
theorem calcTimingGo_ne_nil (tc n : ℕ) (D : ℚ) (seg : List Char)
    (rest : List (List Char)) (cur : ℚ) :
    calcTimingGo tc n D (seg :: rest) cur ≠ [] := by
  simp [calcTimingGo]

/-- The first entry of the timing loop starts at the running time. -/
theorem calcTimingGo_head (tc n : ℕ) (D : ℚ) (seg : List Char)
    (rest : List (List Char)) (cur : ℚ) :
    (calcTimingGo tc n D (seg :: rest) cur).head?.map TimedSegment.startTime
      = some cur := by
  simp [calcTimingGo]

/-- Entries of the timing loop are contiguous: each start time equals the
previous end time. -/
theorem calcTimingGo_chain (tc n : ℕ) (D : ℚ) (segs : List (List Char)) (cur : ℚ) :
    List.Chain' (fun a b => b.startTime = a.endTime) (calcTimingGo tc n D segs cur) := by
  induction segs generalizing cur with
  | nil => simp [calcTimingGo]
  | cons seg rest ih =>
      rw [calcTimingGo]
      by_cases hbr : D ≤ min (cur + max 1 (D * segRatio tc n seg)) D
      · simp [hbr]
      · rw [if_neg hbr, List.chain'_cons']
        refine ⟨?_, ih _⟩
        intro b hb
        cases rest with
        | nil => simp [calcTimingGo] at hb
        | cons s2 r2 =>
            simp only [calcTimingGo, List.head?_cons, Option.mem_def,
              Option.some.injEq] at hb
            rw [← hb]

/-- Every end time produced by the timing loop is at most the total
duration. -/
theorem calcTimingGo_end_le (tc n : ℕ) (D : ℚ) (segs : List (List Char)) (cur : ℚ) :
    ∀ t ∈ calcTimingGo tc n D segs cur, t.endTime ≤ D := by
  induction segs generalizing cur with
  | nil => simp [calcTimingGo]
  | cons seg rest ih =>
      intro t ht
      rw [calcTimingGo] at ht
      rcases List.mem_cons.mp ht with h | h
      · rw [h]
        exact min_le_right _ _
      · by_cases hbr : D ≤ min (cur + max 1 (D * segRatio tc n seg)) D
        · simp [hbr] at h
        · rw [if_neg hbr] at h
          exact ih _ t h
/-- The timing loop emits at most one entry per input segment. -/
theorem calcTimingGo_length_le (tc n : ℕ) (D : ℚ) (segs : List (List Char)) (cur : ℚ) :
    (calcTimingGo tc n D segs cur).length ≤ segs.length := by
  induction segs generalizing cur with
  | nil => simp [calcTimingGo]
  | cons seg rest ih =>
      rw [calcTimingGo]
      by_cases hbr : D ≤ min (cur + max 1 (D * segRatio tc n seg)) D
      · simp [hbr]
      · rw [if_neg hbr]
        simpa using ih _

/-- When the timing loop does not clamp an entry (its end stays below the
total duration), the entry's end is exactly start plus the floored
proportional duration. -/
theorem calcTimingGo_min_eq (tc n : ℕ) (D : ℚ) (seg : List Char) (cur : ℚ)
    (hbr : ¬D ≤ min (cur + max 1 (D * segRatio tc n seg)) D) :
    min (cur + max 1 (D * segRatio tc n seg)) D
      = cur + max 1 (D * segRatio tc n seg) := by
  rcases le_total (cur + max 1 (D * segRatio tc n seg)) D with h1 | h1
  · exact min_eq_left h1
  · rw [min_eq_right h1] at hbr
    exact absurd le_rfl hbr

/-- Every entry of the timing loop except the last pairs with its source
segment, is unclamped, and has the proportional duration with the 1-second
floor. -/
theorem calcTimingGo_dropLast (tc n : ℕ) (D : ℚ) (segs : List (List Char)) (cur : ℚ) :
    ∀ pr ∈ ((calcTimingGo tc n D segs cur).dropLast).zip segs,
      pr.1.duration = max 1 (D * segRatio tc n pr.2) ∧ pr.1.text = pr.2 := by
  induction segs generalizing cur with
  | nil => simp [calcTimingGo]
  | cons seg rest ih =>
      intro pr hpr
      rw [calcTimingGo] at hpr
      by_cases hbr : D ≤ min (cur + max 1 (D * segRatio tc n seg)) D
      · simp [hbr] at hpr
      · rw [if_neg hbr] at hpr
        cases hrest : calcTimingGo tc n D rest
            (min (cur + max 1 (D * segRatio tc n seg)) D) with
        | nil => rw [hrest] at hpr; simp at hpr
        | cons t2 r2 =>
            rw [hrest] at hpr
            rw [List.dropLast_cons_of_ne_nil (by simp), List.zip_cons_cons] at hpr
            rcases List.mem_cons.mp hpr with h | h
            · rw [h]
              refine ⟨?_, rfl⟩
              simp only [TimedSegment.duration, calcTimingGo_min_eq tc n D seg cur hbr]
              ring
            · have := ih (min (cur + max 1 (D * segRatio tc n seg)) D) pr
              rw [hrest] at this
              exact this h

/-- Every entry of the timing loop except the last lasts at least one
second. -/
theorem calcTimingGo_dropLast_one_le (tc n : ℕ) (D : ℚ) (segs : List (List Char)) (cur : ℚ) :
    ∀ t ∈ (calcTimingGo tc n D segs cur).dropLast, 1 ≤ t.duration := by
  induction segs generalizing cur with
  | nil => simp [calcTimingGo]
  | cons seg rest ih =>
      intro t ht
      rw [calcTimingGo] at ht
      by_cases hbr : D ≤ min (cur + max 1 (D * segRatio tc n seg)) D
      · simp [hbr] at ht
      · rw [if_neg hbr] at ht
        cases hrest : calcTimingGo tc n D rest
            (min (cur + max 1 (D * segRatio tc n seg)) D) with
        | nil => rw [hrest] at ht; simp at ht
        | cons t2 r2 =>
            rw [hrest] at ht
            rw [List.dropLast_cons_of_ne_nil (by simp)] at ht
            rcases List.mem_cons.mp ht with h | h
            · rw [h]
              simp only [TimedSegment.duration, calcTimingGo_min_eq tc n D seg cur hbr]
              have : (1 : ℚ) ≤ max 1 (D * segRatio tc n seg) := le_max_left _ _
              linarith
            · have := ih (min (cur + max 1 (D * segRatio tc n seg)) D) t
              rw [hrest] at this
              exact this h

/-- When the timing loop stops early (fewer entries than segments), the
last emitted entry ends exactly at the total duration. -/
theorem calcTimingGo_short_last (tc n : ℕ) (D : ℚ) (segs : List (List Char)) (cur : ℚ) :
    (calcTimingGo tc n D segs cur).length < segs.length →
      ∃ t, (calcTimingGo tc n D segs cur).getLast? = some t ∧ t.endTime = D := by
  induction segs generalizing cur with
  | nil => simp [calcTimingGo]
  | cons seg rest ih =>
      intro hlen
      rw [calcTimingGo] at hlen ⊢
      by_cases hbr : D ≤ min (cur + max 1 (D * segRatio tc n seg)) D
      · rw [if_pos hbr]
        refine ⟨{ startTime := cur,
                  endTime := min (cur + max 1 (D * segRatio tc n seg)) D,
                  text := seg }, by simp, ?_⟩
        exact le_antisymm (min_le_right _ _) hbr
      · rw [if_neg hbr] at hlen ⊢
        have hlen2 : (calcTimingGo tc n D rest
            (min (cur + max 1 (D * segRatio tc n seg)) D)).length < rest.length := by
          simp only [List.length_cons] at hlen
          omega
        obtain ⟨t, hlast, hend⟩ := ih (min (cur + max 1 (D * segRatio tc n seg)) D) hlen2
        refine ⟨t, ?_, hend⟩
        exact Option.mem_def.mp (List.mem_getLast?_cons (Option.mem_def.mpr hlast))

/-- C1: whenever `create_video` reaches the FFmpeg processing step (the
narration audio file exists and at least one image path is available), the
call into `create_video_from_images` passes the keyword `subtitle_path`,
which the callee's signature does not declare, so the call raises
`TypeError`; the enclosing handler catches it and `create_video` returns
`None` on every such input. -/
theorem c1_create_video_always_none (imagePaths : List ℕ) (outputPath : ℕ)
    (processorResult : Bool) (hne : imagePaths ≠ []) :
    kwargsBindOk create_video_from_images_params create_video_call_kwargs = false ∧
    create_video true imagePaths outputPath processorResult = none := by
  have hbind : kwargsBindOk create_video_from_images_params create_video_call_kwargs
      = false := by decide
  refine ⟨hbind, ?_⟩
  simp [create_video, hbind, hne]

theorem c1_create_video_always_none_witness :
    ([0] : List ℕ) ≠ [] ∧
    (kwargsBindOk create_video_from_images_params create_video_call_kwargs = false ∧
     create_video true [0] 0 true = none) :=
  ⟨by decide, c1_create_video_always_none [0] 0 true (by decide)⟩

/-- C2: once `create_video_from_images` reaches the strategy loop (images
non-empty, durations matching), the four strategies are attempted in the
fixed priority order of `methodOrder`, each at most once (the trace is a
duplicate-free prefix of `methodOrder`), the chain stops with success at
the first accepted attempt, and it returns failure only when all four
attempts fail. -/
theorem c2_render_chain (imagePaths : List ℕ) (durations : List ℚ)
    (a0 a1 a2 a3 : AttemptResult) (hne : imagePaths ≠ [])
    (hlen : imagePaths.length = durations.length) :
    (create_video_from_images imagePaths durations a0 a1 a2 a3
        = runMethods (methodOrder.zip [a0, a1, a2, a3])) ∧
    ((runMethodsTrace (methodOrder.zip [a0, a1, a2, a3])).1
        = methodOrder.take (runMethodsTrace (methodOrder.zip [a0, a1, a2, a3])).1.length) ∧
    (runMethodsTrace (methodOrder.zip [a0, a1, a2, a3])).1.Nodup ∧
    (runMethods (methodOrder.zip [a0, a1, a2, a3]) = true ↔
      (attemptAccepted a0 = true ∨ attemptAccepted a1 = true ∨
       attemptAccepted a2 = true ∨ attemptAccepted a3 = true)) ∧
    (attemptAccepted a0 = true →
      runMethodsTrace (methodOrder.zip [a0, a1, a2, a3])
        = ([RenderMethod.method_opencv_sequence], true)) ∧
    (attemptAccepted a0 = false → attemptAccepted a1 = true →
      runMethodsTrace (methodOrder.zip [a0, a1, a2, a3])
        = ([RenderMethod.method_opencv_sequence,
            RenderMethod.method_ffmpeg_concat], true)) ∧
    (attemptAccepted a0 = false → attemptAccepted a1 = false →
      attemptAccepted a2 = true →
      runMethodsTrace (methodOrder.zip [a0, a1, a2, a3])
        = ([RenderMethod.method_opencv_sequence, RenderMethod.method_ffmpeg_concat,
            RenderMethod.method_simple_slideshow], true)) ∧
    (attemptAccepted a0 = false → attemptAccepted a1 = false →
      attemptAccepted a2 = false → attemptAccepted a3 = true →
      runMethodsTrace (methodOrder.zip [a0, a1, a2, a3]) = (methodOrder, true)) ∧
    (attemptAccepted a0 = false → attemptAccepted a1 = false →
      attemptAccepted a2 = false → attemptAccepted a3 = false →
      runMethodsTrace (methodOrder.zip [a0, a1, a2, a3]) = (methodOrder, false)) := by
  by_cases h0 : attemptAccepted a0 <;> by_cases h1 : attemptAccepted a1 <;>
    by_cases h2 : attemptAccepted a2 <;> by_cases h3 : attemptAccepted a3 <;>
    simp_all [create_video_from_images, runMethods, runMethodsTrace, methodOrder, hne, hlen]

theorem c2_render_chain_witness :
    ([0] : List ℕ) ≠ [] ∧ ([0] : List ℕ).length = [(1 : ℚ)].length ∧
    create_video_from_images [0] [(1 : ℚ)]
        { raised := false, success := true, outputExists := true, outputSize := 5 }
        { raised := false, success := false, outputExists := false, outputSize := 0 }
        { raised := false, success := false, outputExists := false, outputSize := 0 }
        { raised := false, success := false, outputExists := false, outputSize := 0 }
      = runMethods (methodOrder.zip
          [{ raised := false, success := true, outputExists := true, outputSize := 5 },
           { raised := false, success := false, outputExists := false, outputSize := 0 },
           { raised := false, success := false, outputExists := false, outputSize := 0 },
           { raised := false, success := false, outputExists := false, outputSize := 0 }]) :=
  ⟨by decide, by decide,
   (c2_render_chain [0] [(1 : ℚ)]
      { raised := false, success := true, outputExists := true, outputSize := 5 }
      { raised := false, success := false, outputExists := false, outputSize := 0 }
      { raised := false, success := false, outputExists := false, outputSize := 0 }
      { raised := false, success := false, outputExists := false, outputSize := 0 }
      (by decide) (by decide)).1⟩

/-- C6 counterexample: strategy 0 reports success and the output path
exists but the output file is zero bytes; the chain still reports success,
so an output path is reported as success without any size validation and a
zero-byte file is handed to the caller. -/
theorem c6_no_size_validation_counterexample :
    create_video_from_images [0] [(1 : ℚ)]
        { raised := false, success := true, outputExists := true, outputSize := 0 }
        { raised := false, success := false, outputExists := false, outputSize := 0 }
        { raised := false, success := false, outputExists := false, outputSize := 0 }
        { raised := false, success := false, outputExists := false, outputSize := 0 }
      = true ∧
    AttemptResult.outputSize
        { raised := false, success := true, outputExists := true, outputSize := 0 } = 0 := by
  decide

/-- The acceptance test never reads the output size. -/
theorem attemptAccepted_with_outputSize (a : AttemptResult) (n : ℕ) :
    attemptAccepted { a with outputSize := n } = attemptAccepted a := rfl

/-- C6 (amended): an output path is reported as success only after the
chain's acceptance test passed — the strategy reported success and
`Path(output_path).exists()` held — but the file size is never consulted:
the chain's verdict is invariant under the sizes of the outputs, so a
zero-byte output can be reported as success. -/
theorem c6_success_existence_validated_only (imagePaths : List ℕ)
    (durations : List ℚ) (a0 a1 a2 a3 : AttemptResult)
    (h : create_video_from_images imagePaths durations a0 a1 a2 a3 = true) :
    (attemptAccepted a0 = true ∨ attemptAccepted a1 = true ∨
     attemptAccepted a2 = true ∨ attemptAccepted a3 = true) ∧
    (∀ n0 n1 n2 n3 : ℕ,
      create_video_from_images imagePaths durations
        { a0 with outputSize := n0 } { a1 with outputSize := n1 }
        { a2 with outputSize := n2 } { a3 with outputSize := n3 } = true) := by
  by_cases h0 : attemptAccepted a0 <;> by_cases h1 : attemptAccepted a1 <;>
    by_cases h2 : attemptAccepted a2 <;> by_cases h3 : attemptAccepted a3 <;>
    simp_all [create_video_from_images, runMethods, runMethodsTrace, methodOrder,
      attemptAccepted_with_outputSize]

theorem c6_success_existence_validated_only_witness :
    create_video_from_images [0] [(1 : ℚ)]
        { raised := false, success := true, outputExists := true, outputSize := 0 }
        { raised := false, success := false, outputExists := false, outputSize := 0 }
        { raised := false, success := false, outputExists := false, outputSize := 0 }
        { raised := false, success := false, outputExists := false, outputSize := 0 }
      = true ∧
    (attemptAccepted { raised := false, success := true, outputExists := true, outputSize := 0 } = true ∨
     attemptAccepted { raised := false, success := false, outputExists := false, outputSize := 0 } = true ∨
     attemptAccepted { raised := false, success := false, outputExists := false, outputSize := 0 } = true ∨
     attemptAccepted { raised := false, success := false, outputExists := false, outputSize := 0 } = true) :=
  ⟨by decide,
   (c6_success_existence_validated_only [0] [(1 : ℚ)]
      { raised := false, success := true, outputExists := true, outputSize := 0 }
      { raised := false, success := false, outputExists := false, outputSize := 0 }
      { raised := false, success := false, outputExists := false, outputSize := 0 }
      { raised := false, success := false, outputExists := false, outputSize := 0 }
      (by decide)).1⟩

/-- `pyInt` on an integer-valued rational is that integer. -/
theorem pyInt_intCast (z : ℤ) : pyInt (z : ℚ) = z := by
  rw [pyInt]
  by_cases h : (0 : ℚ) ≤ (z : ℚ)
  · rw [if_pos h, Int.floor_intCast]
  · rw [if_neg h]
    rw [show (-(z : ℚ)) = ((-z : ℤ) : ℚ) by push_cast; ring, Int.floor_intCast]
    ring

/-- The crossfade frame count at 24 fps with a 1-second crossfade. -/
theorem crossfadeFrames_one_24 : crossfadeFrames 1 24 = 24 := by
  simp only [crossfadeFrames]
  norm_num [pyInt]

/-- C3 counterexample: slot 1 with duration 0.5 s, crossfade 1 s, 24 fps,
both images readable.  The claim predicts `round(0.5 * 24) = 12` frames,
but the compositor writes the 24 crossfade frames plus `max(1, 12 - 24)
= 1` steady frame, 25 frames in total: the `max(1, ·)` clamp lets the
crossfade exceed the slot's budget instead of preserving it. -/
theorem c3_crossfade_budget_counterexample :
    (0 : ℚ) < 1 ∧ 0 < (1 : ℕ) ∧
    slotFramesWritten 1 (1/2) 1 24 true true = 25 ∧
    round (((1 : ℚ)/2) * 24) = 12 ∧
    slotFramesWritten 1 (1/2) 1 24 true true ≠ round (((1 : ℚ)/2) * 24) := by
  have h1 : slotFramesWritten 1 (1/2) 1 24 true true = 25 := by
    simp only [slotFramesWritten, crossfadeFrames, Bool.not_true, Bool.false_eq_true,
      if_false]
    norm_num [pyInt]
  have h2 : round (((1 : ℚ)/2) * 24) = 12 := by norm_num
  exact ⟨by norm_num, Nat.zero_lt_one, h1, h2, by rw [h1, h2]; decide⟩

/-- C3 (amended): for a readable slot `i > 0` with a positive crossfade
frame count and a readable previous image, the total number of frames
written is `crossfade_frames + max(1, int(duration * fps) -
crossfade_frames)`; this equals the slot budget `int(duration * fps)` —
Python truncation, not rounding — exactly when the steady-state remainder
is at least one frame, and exceeds the budget otherwise. -/
theorem c3_crossfade_budget (i : ℕ) (duration crossfadeDuration : ℚ)
    (fps : ℕ) (hi : 0 < i) (hcf : 0 < crossfadeFrames crossfadeDuration fps) :
    slotFramesWritten i duration crossfadeDuration fps true true
      = crossfadeFrames crossfadeDuration fps
        + max 1 (pyInt (duration * fps) - crossfadeFrames crossfadeDuration fps) ∧
    (1 ≤ pyInt (duration * fps) - crossfadeFrames crossfadeDuration fps →
      slotFramesWritten i duration crossfadeDuration fps true true
        = pyInt (duration * fps)) := by
  have hif : slotFramesWritten i duration crossfadeDuration fps true true
      = crossfadeFrames crossfadeDuration fps
        + max 1 (pyInt (duration * fps) - crossfadeFrames crossfadeDuration fps) := by
    simp only [slotFramesWritten, Bool.not_true, Bool.false_eq_true, if_false]
    rw [if_pos ⟨hi, hcf, by trivial⟩]
  refine ⟨hif, fun hrem => ?_⟩
  rw [hif, max_eq_right hrem]
  ring

theorem c3_crossfade_budget_witness :
    0 < (1 : ℕ) ∧ 0 < crossfadeFrames 1 24 ∧
    slotFramesWritten 1 1 1 24 true true
      = crossfadeFrames 1 24
        + max 1 (pyInt (1 * ((24 : ℕ) : ℚ)) - crossfadeFrames 1 24) :=
  ⟨Nat.zero_lt_one, by rw [crossfadeFrames_one_24]; decide,
   (c3_crossfade_budget 1 1 1 24 Nat.zero_lt_one
      (by rw [crossfadeFrames_one_24]; decide)).1⟩

/-- C7 counterexample: with narration and background music both present
(and regardless of their durations, which the mux never reads), the audio
filter chain built by `_add_audio_with_ffmpeg` is exactly a volume filter
on the music followed by a two-input `amix`; it contains no loop, no trim
and no fade operation, contrary to the claimed loop-trim-fade treatment of
a short music track. -/
theorem c7_no_loop_trim_fade_counterexample :
    add_audio_with_ffmpeg_filters (some (0 : ℕ)) (some 1) (3/10)
      = some [AudioFilterOp.volume (3/10), AudioFilterOp.amix 2] ∧
    ([AudioFilterOp.volume (3/10), AudioFilterOp.amix 2].all
        (fun f => !f.isLoop && !f.isTrim && !f.isFade)) = true :=
  ⟨rfl, rfl⟩

/-- C7 (amended): when both narration and background music are present,
the mux volume-scales the music and additively mixes it with the narration
via a two-input `amix` (the output truncated to the shortest stream); no
looping, trimming or fading is applied to the music track. -/
theorem c7_music_volume_amix_only (a m : ℕ) (v : ℚ) :
    add_audio_with_ffmpeg_filters (some a) (some m) v
      = some [AudioFilterOp.volume v, AudioFilterOp.amix 2] ∧
    ([AudioFilterOp.volume v, AudioFilterOp.amix 2].all
        (fun f => !f.isLoop && !f.isTrim && !f.isFade)) = true :=
  ⟨rfl, rfl⟩
/-- C8: `ensure_sufficient_images` with `required_count > 0`.  When enough
images already exist, it returns the shuffle of a `random.sample` of
exactly `required_count` existing images — so the result has exactly
`required_count` entries, all drawn from the existing images.  When the
existing images are insufficient and the generation client is unavailable,
it returns exactly the existing images (so the result is empty only when
no image exists at all). -/
theorem c8_ensure_sufficient_images (sample : List ℕ → ℕ → List ℕ)
    (shuffle : List ℕ → List ℕ) (generated : ℕ → List ℕ)
    (existingImages : List ℕ) (requiredCount : ℕ)
    (hsampleLen : ∀ xs n, n ≤ xs.length → (sample xs n).length = n)
    (hsampleMem : ∀ xs n, ∀ x ∈ sample xs n, x ∈ xs)
    (hshuffle : ∀ xs, (shuffle xs).Perm xs) :
    (requiredCount ≤ existingImages.length →
      ∀ clientAvailable,
        (ensure_sufficient_images sample shuffle generated existingImages
            clientAvailable requiredCount
          = shuffle (sample existingImages requiredCount)) ∧
        (ensure_sufficient_images sample shuffle generated existingImages
            clientAvailable requiredCount).length = requiredCount ∧
        (∀ x ∈ ensure_sufficient_images sample shuffle generated existingImages
            clientAvailable requiredCount, x ∈ existingImages)) ∧
    (existingImages.length < requiredCount →
      (ensure_sufficient_images sample shuffle generated existingImages
          false requiredCount = existingImages) ∧
      (ensure_sufficient_images sample shuffle generated existingImages
          false requiredCount = [] ↔ existingImages = [])) := by
  constructor
  · intro hge clientAvailable
    have heq : ensure_sufficient_images sample shuffle generated existingImages
        clientAvailable requiredCount = shuffle (sample existingImages requiredCount) := by
      simp only [ensure_sufficient_images, if_pos hge]
    refine ⟨heq, ?_, ?_⟩
    · rw [heq, (hshuffle _).length_eq, hsampleLen _ _ hge]
    · intro x hx
      rw [heq] at hx
      exact hsampleMem _ _ x ((hshuffle _).mem_iff.mp hx)
  · intro hlt
    have heq : ensure_sufficient_images sample shuffle generated existingImages
        false requiredCount = existingImages := by
      simp only [ensure_sufficient_images, if_neg (not_le.mpr hlt), Bool.not_false,
        if_true]
      by_cases hempty : existingImages.isEmpty
      · rw [if_neg (by simp [hempty]), List.isEmpty_iff.mp hempty]
      · rw [if_pos (by simp [hempty])]
    exact ⟨heq, by rw [heq]⟩

theorem c8_ensure_sufficient_images_witness :
    (1 : ℕ) ≤ ([7] : List ℕ).length ∧
    ensure_sufficient_images (fun xs n => xs.take n) (fun xs => xs) (fun _ => [])
        [7] false 1 = [7] :=
  ⟨by decide,
   (((c8_ensure_sufficient_images (fun xs n => xs.take n) (fun xs => xs) (fun _ => [])
        [7] 1
        (fun xs n h => by rw [List.length_take]; omega)
        (fun xs n x hx => List.take_subset n xs hx)
        (fun xs => List.Perm.refl xs)).1 (by decide) false).1).trans (by decide)⟩

/-- C9: the content key is a deterministic function of prompt, size and
quality (recomputation from equal inputs yields equal keys); dictionary
assignment into the cache preserves key uniqueness, so at most one entry
exists per content key; and when caching is enabled, the key has an entry
and its file still exists on disk, the cached file is reused and no
generation call is made for that prompt. -/
theorem c9_image_cache (md5hex : String → String)
    (p1 s1 q1 p2 s2 q2 : String) (fileExists : String → Bool)
    (genOutcome : Option (String × CacheEntry))
    (cache : List (String × CacheEntry)) (k : String) (entry : CacheEntry)
    (hp : p1 = p2) (hs : s1 = s2) (hq : q1 = q2)
    (hnodup : (cache.map Prod.fst).Nodup)
    (hhit : lookupCache cache k = some entry)
    (hexists : fileExists entry.file_path = true) :
    cacheKey md5hex p1 s1 q1 = cacheKey md5hex p2 s2 q2 ∧
    (∀ k2 e2, ((updateCache cache k2 e2).map Prod.fst).Nodup) ∧
    generateImagesStep true fileExists genOutcome cache k
      = { generationCalled := false, resultPath := some entry.file_path,
          newCache := cache } := by
  refine ⟨by rw [hp, hs, hq], ?_, ?_⟩
  · intro k2 e2
    by_cases hfind : (cache.find? (fun kv => kv.1 = k2)).isSome
    · rw [updateCache, if_pos hfind, List.map_map]
      have : cache.map (Prod.fst ∘ fun kv => if kv.1 = k2 then (k2, e2) else kv)
          = cache.map Prod.fst := by
        refine List.map_congr_left ?_
        intro kv _
        by_cases hkv : kv.1 = k2
        · simp [hkv]
        · simp [hkv]
      rw [this]
      exact hnodup
    · rw [updateCache, if_neg hfind, List.map_append]
      have hnone : cache.find? (fun kv => kv.1 = k2) = none := by
        rcases Option.eq_none_or_eq_some (cache.find? (fun kv => kv.1 = k2)) with h | ⟨v, h⟩
        · exact h
        · exact absurd (by rw [h]; rfl) hfind
      have hnotmem : k2 ∉ cache.map Prod.fst := by
        intro hmem
        obtain ⟨kv, hkv, hfst⟩ := List.mem_map.mp hmem
        have := List.find?_eq_none.mp hnone kv hkv
        simp [hfst] at this
      simp only [List.map_cons, List.map_nil]
      rw [List.nodup_append]
      exact ⟨hnodup, List.nodup_singleton k2, by simpa using hnotmem⟩
  · simp [generateImagesStep, hhit, hexists]

theorem c9_image_cache_witness :
    (lookupCache [("k", { file_path := "f", prompt := "p", story_title := "t" })] ("k")
        = some { file_path := "f", prompt := "p", story_title := "t" }) ∧
    generateImagesStep true (fun _ => true) none
        [("k", { file_path := "f", prompt := "p", story_title := "t" })] ("k")
      = { generationCalled := false, resultPath := some ("f"),
          newCache := [("k", { file_path := "f", prompt := "p", story_title := "t" })] } :=
  ⟨by decide,
   (c9_image_cache (fun s => s) ("") ("") ("") ("") ("") ("") (fun _ => true) none
      [("k", { file_path := "f", prompt := "p", story_title := "t" })] ("k")
      { file_path := "f", prompt := "p", story_title := "t" }
      rfl rfl rfl (by decide) (by decide) rfl).2.2⟩

/-- C4: for a non-empty segment list with positive total character count
and positive duration `D`, the timing allocation pairs each emitted entry
except the final one with its source segment and gives it exactly the
duration `D * (len(segment) / total_chars)` raised to the 1-second floor;
time is consumed sequentially from 0 (first start is 0 and entries are
contiguous); every end — in particular the final one — is clamped to at
most `D`; and segments are dropped (the output is shorter than the input)
only when the accumulated time has reached exactly `D`. -/
theorem c4_timing_allocation (segs : List (List Char)) (D : ℚ)
    (hne : segs ≠ []) (hD : 0 < D) (htc : 0 < totalCharsOf segs) :
    (∀ pr ∈ ((calculate_timing segs D).dropLast).zip segs,
        pr.1.duration = max 1 (D * ((pr.2.length : ℚ) / (totalCharsOf segs : ℚ))) ∧
        pr.1.text = pr.2) ∧
    ((calculate_timing segs D).head?.map TimedSegment.startTime = some 0) ∧
    List.Chain' (fun a b => b.startTime = a.endTime) (calculate_timing segs D) ∧
    (∀ t ∈ calculate_timing segs D, t.endTime ≤ D) ∧
    ((calculate_timing segs D).length ≤ segs.length) ∧
    ((calculate_timing segs D).length < segs.length →
      ∃ t, (calculate_timing segs D).getLast? = some t ∧ t.endTime = D) := by
  have hct : calculate_timing segs D
      = calcTimingGo (totalCharsOf segs) segs.length D segs 0 := by
    rw [calculate_timing, if_neg (by simpa using hne)]
  refine ⟨?_, ?_, ?_, ?_, ?_, ?_⟩
  · intro pr hpr
    rw [hct] at hpr
    obtain ⟨hdur, htext⟩ := calcTimingGo_dropLast (totalCharsOf segs) segs.length D segs 0 pr hpr
    refine ⟨?_, htext⟩
    rw [hdur, segRatio, if_pos htc]
  · rw [hct]
    cases segs with
    | nil => exact absurd rfl hne
    | cons s rest => exact calcTimingGo_head _ _ _ _ _ _
  · rw [hct]
    exact calcTimingGo_chain _ _ _ _ _
  · rw [hct]
    exact calcTimingGo_end_le _ _ _ _ _
  · rw [hct]
    exact calcTimingGo_length_le _ _ _ _ _
  · rw [hct]
    exact calcTimingGo_short_last _ _ _ _ _

theorem c4_timing_allocation_witness :
    ([['a', 'b', 'c']] : List (List Char)) ≠ [] ∧ (0 : ℚ) < 5 ∧
    0 < totalCharsOf [['a', 'b', 'c']] ∧
    ((calculate_timing [['a', 'b', 'c']] 5).head?.map TimedSegment.startTime = some 0) :=
  ⟨by decide, by norm_num, by decide,
   (c4_timing_allocation [['a', 'b', 'c']] 5 (by decide) (by norm_num)
      (by decide)).2.1⟩

/-- C5 counterexample: three equal-length segments with total duration
2.5 s.  Each raw proportional duration is 5/6 s, raised to the 1-second
floor; the first two segments occupy [0,1) and [1,2), and the third is
clamped to end at 2.5 s with duration 0.5 s — a segment that is not the
only one yet lasts less than 1 second, contradicting the claimed
invariant. -/
theorem c5_caption_invariants_counterexample :
    (calculate_timing [['a', 'b', 'c'], ['d', 'e', 'f'], ['g', 'h', 'i']] (5/2)).length
      = 3 ∧
    ∃ t ∈ calculate_timing [['a', 'b', 'c'], ['d', 'e', 'f'], ['g', 'h', 'i']] (5/2),
      t.duration < 1 := by
  constructor
  · norm_num [calculate_timing, calcTimingGo, totalCharsOf, segRatio]
  · refine ⟨{ startTime := 2, endTime := 5/2, text := ['g', 'h', 'i'] }, ?_, by norm_num [TimedSegment.duration]⟩
    norm_num [calculate_timing, calcTimingGo, totalCharsOf, segRatio]

/-- C5 (amended): for every non-empty segment list and duration `D`, the
emitted caption sequence is contiguous (each start equals the previous
end) and hence non-overlapping, the first start is 0, every end — the
last in particular — is at most `D`, and every segment except possibly
the final (clamped) one lasts at least 1 second.  (The original claim's
exception only for a single-segment list fails: the final segment of a
longer list can be clamped below 1 second.) -/
theorem c5_caption_invariants (segs : List (List Char)) (D : ℚ) (hne : segs ≠ []) :
    List.Chain' (fun a b => b.startTime = a.endTime) (calculate_timing segs D) ∧
    ((calculate_timing segs D).head?.map TimedSegment.startTime = some 0) ∧
    (∀ t ∈ calculate_timing segs D, t.endTime ≤ D) ∧
    (∀ t ∈ (calculate_timing segs D).dropLast, 1 ≤ t.duration) := by
  have hct : calculate_timing segs D
      = calcTimingGo (totalCharsOf segs) segs.length D segs 0 := by
    rw [calculate_timing, if_neg (by simpa using hne)]
  refine ⟨?_, ?_, ?_, ?_⟩
  · rw [hct]
    exact calcTimingGo_chain _ _ _ _ _
  · rw [hct]
    cases segs with
    | nil => exact absurd rfl hne
    | cons s rest => exact calcTimingGo_head _ _ _ _ _ _
  · rw [hct]
    exact calcTimingGo_end_le _ _ _ _ _
  · rw [hct]
    exact calcTimingGo_dropLast_one_le _ _ _ _ _

theorem c5_caption_invariants_witness :
    ([['a']] : List (List Char)) ≠ [] ∧
    ((calculate_timing [['a']] 2).head?.map TimedSegment.startTime = some 0) :=
  ⟨by decide, (c5_caption_invariants [['a']] 2 (by decide)).2.1⟩

/-- C10: an input text of 0 characters yields, through the full Subtitle
Timer pipeline (clean, split into segments, allocate timing), an empty
segment list for every total duration — the split produces no segments
and the timing loop maps the empty segment list to the empty output, with
no error path involved. -/
theorem c10_empty_text_empty_segments (D : ℚ) :
    split_text_into_segments 8 50 (clean_text []) = [] ∧
    subtitleTimer 8 50 [] D = [] := by
  have hsplit : split_text_into_segments 8 50 (clean_text []) = [] := by
    simp [clean_text, collapseWs, collapseWsGo, subBold, subSingleDelim,
      removeDelimSpans, pyStrip, split_text_into_segments, splitSentences,
      splitSentencesGo, segmentsOfSentence, pyFields, pyFieldsGo]
  refine ⟨hsplit, ?_⟩
  rw [subtitleTimer, hsplit, calculate_timing]
  rfl
